import Mathlib

set_option linter.unusedVariables false

/-!
Verification of the document-ingestion service (`ingestion-service/ingest.py`).

The Python service is shallowly embedded: every external effect (git clone,
S3 listing/download, HTTP download, docling conversion, backend registration
and insertion, readiness probes) is represented by an explicit outcome value
("oracle") passed into the embedded function, and Python exceptions are
represented by the `Except PyErr` monad.  Dictionary subscripts (`cfg['k']`)
are embedded as lookups in `Option`-valued fields that raise `KeyError` when
the key is absent, while `cfg.get('k', d)` becomes `Option.getD`.
-/

namespace RAGIngest

/-! ### String helpers (os.path.basename, case-insensitive substring) -/

/-- `leadsList n h` is true when the character list `n` starts the list `h`. -/
def leadsList : List Char → List Char → Bool
  | [], _ => true
  | _ :: _, [] => false
  | a :: as, b :: bs => a == b && leadsList as bs

/-- `occursList n h` is true when `n` occurs contiguously somewhere in `h`. -/
def occursList (n : List Char) : List Char → Bool
  | [] => leadsList n []
  | c :: cs => leadsList n (c :: cs) || occursList n cs

/-- Python's `str.lower` on one character (the service only ever lowercases
ASCII needles such as `.pdf` and `already exists`). -/
def charLower (c : Char) : Char :=
  if 65 ≤ c.toNat ∧ c.toNat ≤ 90 then Char.ofNat (c.toNat + 32) else c

/-- Python's `str.lower`. -/
def strLower (s : String) : String :=
  ⟨s.data.map charLower⟩

/-- Python's `str.endswith`. -/
def strEndsWith (s suff : String) : Bool :=
  leadsList suff.data.reverse s.data.reverse

/-- Case-insensitive substring test, embedding Python's
`needle in haystack.lower()` idiom (the needle is already lowercase in the
source; we lowercase both sides). -/
def strOccurs (needle haystack : String) : Bool :=
  occursList (strLower needle).data (strLower haystack).data

/-- Python's `str.split` on a one-character separator. -/
def splitChar (sep : Char) : List Char → List (List Char)
  | [] => [[]]
  | c :: cs =>
    let r := splitChar sep cs
    if c == sep then [] :: r
    else
      match r with
      | [] => [[c]]
      | h :: t => (c :: h) :: t

/-- `os.path.basename`: the part of the path after the last `/`. -/
def basename (p : String) : String :=
  ⟨(splitChar '/' p.data).getLastD []⟩

/-- `os.path.join` for the two-argument uses in the service. -/
def pathJoin (a b : String) : String :=
  a ++ "/" ++ b

/-! ### Python exceptions -/

/-- The exceptions the embedded code can raise or observe. -/
inductive PyErr where
  | keyError (key : String)
  | exception (msg : String)
  deriving DecidableEq, Repr

/-- Embedded dictionary subscript `d[key]`: raises `KeyError` when absent. -/
def dictGet (v : Option α) (key : String) : Except PyErr α :=
  match v with
  | some x => Except.ok x
  | none => Except.error (PyErr.keyError key)

/-! ### SourceFetcher: `fetch_from_github` (ingest.py lines 82-122) -/

/-- The `config` dict of a GITHUB source.  `url` is read with `config['url']`
(required); the others are read with `config.get` and a default. -/
structure GithubConfig where
  url : Option String
  path : Option String
  branch : Option String
  token : Option String
  deriving Repr

/-- Outcome of `subprocess.run(['git', 'clone', ...], check=True, ...)`.
Only `subprocess.CalledProcessError` is caught by the source; any other
exception raised by the subprocess call propagates. -/
inductive CloneOutcome where
  | ok
  | calledProcessError (stderr : String)
  | otherError (e : PyErr)
  deriving Repr

/-- `IngestionService.fetch_from_github`.  `pathExists` is the outcome of
`os.path.exists(target_dir)` and `walk` lists the `(root, file)` pairs
produced by `os.walk(target_dir)`. -/
def fetch_from_github (config : GithubConfig) (clone : CloneOutcome)
    (pathExists : Bool) (walk : List (String × String)) (temp_dir : String) :
    Except PyErr (List String) :=
  match dictGet config.url "url" with
  | Except.error e => Except.error e
  | Except.ok _url =>
    let path := config.path.getD ""
    let _branch := config.branch.getD "main"
    let _token := config.token.getD ""
    let clone_dir := pathJoin temp_dir "repo"
    match clone with
    | CloneOutcome.calledProcessError _ => Except.ok []
    | CloneOutcome.otherError e => Except.error e
    | CloneOutcome.ok =>
      let target_dir := if path ≠ "" then pathJoin clone_dir path else clone_dir
      if ¬ pathExists then
        Except.ok []
      else
        Except.ok ((walk.filter (fun rf => strEndsWith (strLower rf.2) ".pdf")).map
          (fun rf => pathJoin rf.1 rf.2))

/-! ### SourceFetcher: `fetch_from_s3` (ingest.py lines 124-168) -/

/-- The `config` dict of an S3 source: four required keys and an optional
`prefix` (read with `config.get('prefix', '')`, stored here as `pre`). -/
structure S3Config where
  endpoint : Option String
  bucket : Option String
  access_key : Option String
  secret_key : Option String
  pre : Option String
  deriving Repr

/-- The body of the `try` block of `fetch_from_s3`: paginate the listing and
download every key ending in `.pdf`.  `listErr` is an exception raised by the
pagination itself; `dl k = some e` means downloading key `k` raised `e`.
Any raised exception aborts the loop (files already downloaded are dropped). -/
def s3TryBody (downloadDir : String) (listErr : Option PyErr)
    (keys : List String) (dl : String → Option PyErr) :
    Except PyErr (List String) :=
  match listErr with
  | some e => Except.error e
  | none => loop keys
where
  loop : List String → Except PyErr (List String)
    | [] => Except.ok []
    | k :: rest =>
      if strEndsWith (strLower k) ".pdf" then
        match dl k with
        | some e => Except.error e
        | none =>
          match loop rest with
          | Except.error e => Except.error e
          | Except.ok fs => Except.ok (pathJoin downloadDir (basename k) :: fs)
      else loop rest

/-- `IngestionService.fetch_from_s3`.  The whole listing/download loop is
wrapped in `try ... except Exception: return []`. -/
def fetch_from_s3 (config : S3Config) (listErr : Option PyErr)
    (keys : List String) (dl : String → Option PyErr) (temp_dir : String) :
    Except PyErr (List String) :=
  match dictGet config.endpoint "endpoint" with
  | Except.error e => Except.error e
  | Except.ok _endpoint =>
  match dictGet config.bucket "bucket" with
  | Except.error e => Except.error e
  | Except.ok _bucket =>
  match dictGet config.access_key "access_key" with
  | Except.error e => Except.error e
  | Except.ok _access =>
  match dictGet config.secret_key "secret_key" with
  | Except.error e => Except.error e
  | Except.ok _secret =>
    let _pre := config.pre.getD ""
    let download_dir := pathJoin temp_dir "s3_files"
    match s3TryBody download_dir listErr keys dl with
    | Except.error _ => Except.ok []
    | Except.ok files => Except.ok files

/-! ### SourceFetcher: `fetch_from_urls` (ingest.py lines 170-202) -/

/-- The `config` dict of a URL source; `urls` is read with
`config.get('urls', [])`. -/
structure UrlConfig where
  urls : Option (List String)
  deriving Repr

/-- Local filename chosen for a URL: basename of the URL with query
parameters stripped, forced to end in `.pdf`. -/
def urlFilename (url : String) : String :=
  let base := basename ⟨(splitChar '?' url.data).headD url.data⟩
  if strEndsWith (strLower base) ".pdf" then base else base ++ ".pdf"

/-- The per-URL loop of `fetch_from_urls`: each iteration is wrapped in its
own `try ... except Exception`, so a failed download (`dl u = some e`) is
skipped and the loop continues. -/
def urlLoop (dir : String) (dl : String → Option PyErr) :
    List String → List String
  | [] => []
  | u :: rest =>
    match dl u with
    | some _ => urlLoop dir dl rest
    | none => pathJoin dir (urlFilename u) :: urlLoop dir dl rest

/-- `IngestionService.fetch_from_urls`. -/
def fetch_from_urls (config : UrlConfig) (dl : String → Option PyErr)
    (temp_dir : String) : Except PyErr (List String) :=
  let urls := config.urls.getD []
  let download_dir := pathJoin temp_dir "url_files"
  Except.ok (urlLoop download_dir dl urls)

/-! ### DocumentTransformer: `process_documents` (ingest.py lines 204-243) -/

/-- Decimal digit character, as used by Python's `str` on a nonnegative
integer (and by the f-string `f"doc-{doc_id}"`). -/
def digitChar (d : Nat) : Char :=
  Char.ofNat (48 + d)

/-- Decimal rendering of a nonnegative integer, most significant digit
first, embedding Python's `str(doc_id)`.  The first argument is recursion
fuel; any fuel above the digit count (in particular `n + 1`) is enough. -/
def pyStrAuxF : Nat → Nat → List Char
  | 0, _ => []
  | fuel + 1, n =>
    if n < 10 then [digitChar n]
    else pyStrAuxF fuel (n / 10) ++ [digitChar (n % 10)]

/-- Python's `str` on a nonnegative integer. -/
def pyStr (n : Nat) : String :=
  ⟨pyStrAuxF (n + 1) n⟩

/-- The labels docling attaches to the items of a chunk
(`DocItemLabel`); only `TEXT` and `PARAGRAPH` matter to the service. -/
inductive DocItemLabel where
  | text
  | paragraph
  | table
  | picture
  | other (s : String)
  deriving DecidableEq, Repr

/-- One chunk produced by the hybrid chunker: its text and the labels of its
`meta.doc_items`. -/
structure DoclingChunk where
  text : String
  doc_items : List DocItemLabel
  deriving DecidableEq, Repr

/-- The `LlamaStackDocument` built for each retained chunk; `metadata` in the
source is the one-entry dict `{"source": ...}`, embedded as
`metadata_source`. -/
structure LlamaStackDocument where
  document_id : String
  content : String
  mime_type : String
  metadata_source : String
  deriving DecidableEq, Repr

/-- The retention test of lines 222-225: keep a chunk when any of its doc
items is labelled `TEXT` or `PARAGRAPH`. -/
def keepChunk (c : DoclingChunk) : Bool :=
  c.doc_items.any (fun l => l == DocItemLabel.text || l == DocItemLabel.paragraph)

/-- The inner loop of `process_documents` over the chunks of one file:
`docId` is the running `doc_id` counter, incremented before each retained
chunk; returns the documents built for this file and the final counter. -/
def chunksToDocs (file_path : String) (docId : Nat) :
    List DoclingChunk → List LlamaStackDocument × Nat
  | [] => ([], docId)
  | c :: rest =>
    if keepChunk c then
      let d : LlamaStackDocument :=
        { document_id := "doc-" ++ pyStr (docId + 1)
          content := c.text
          mime_type := "text/plain"
          metadata_source := basename file_path }
      let r := chunksToDocs file_path (docId + 1) rest
      (d :: r.1, r.2)
    else chunksToDocs file_path docId rest

/-- The outer loop of `process_documents` over the input files.  `conv f` is
the outcome of `self.converter.convert(source=f)` followed by chunking; a
raised exception (`Except.error`) is caught by the per-file
`try ... except Exception`, contributes zero chunks, and the loop
continues.  The `doc_id` counter is threaded across files. -/
def processLoop (conv : String → Except PyErr (List DoclingChunk)) :
    List String → Nat → List LlamaStackDocument × Nat
  | [], docId => ([], docId)
  | f :: rest, docId =>
    match conv f with
    | Except.error _ => processLoop conv rest docId
    | Except.ok cs =>
      let r := chunksToDocs f docId cs
      let r2 := processLoop conv rest r.2
      (r.1 ++ r2.1, r2.2)

/-- `IngestionService.process_documents`: the chunk list handed to the
loader for one pipeline run, with `doc_id` starting at 0. -/
def process_documents (pdf_files : List String)
    (conv : String → Except PyErr (List DoclingChunk)) :
    List LlamaStackDocument :=
  (processLoop conv pdf_files 0).1

/-! ### CollectionLoader: `create_vector_db` (ingest.py lines 253-293) -/

/-- Outcome of `self.client.vector_dbs.register(...)`: success, or a raised
exception observed through `str(e)` (the `except` there is a broad
`except Exception`). -/
inductive RegisterOutcome where
  | ok
  | err (msg : String)
  deriving DecidableEq, Repr

/-- The backend calls `create_vector_db` can issue, in order. -/
inductive BackendCall where
  | register
  | insert
  deriving DecidableEq, Repr

/-- `IngestionService.create_vector_db`: returns the boolean pipeline-stage
result together with the list of backend calls issued.  `reg` is the outcome
of the registration call and `insertOk` the outcome of
`tool_runtime.rag_tool.insert` (whose exceptions are caught and turned into
`False`). -/
def create_vector_db (vector_store_name : String)
    (documents : List LlamaStackDocument) (reg : RegisterOutcome)
    (insertOk : Bool) : Bool × List BackendCall :=
  if documents.isEmpty then (false, [])
  else
    match reg with
    | RegisterOutcome.ok => (insertOk, [BackendCall.register, BackendCall.insert])
    | RegisterOutcome.err msg =>
      if strOccurs "already exists" msg then
        (insertOk, [BackendCall.register, BackendCall.insert])
      else (false, [BackendCall.register])

/-- Modelled from the spec: the backend's collection-registration endpoint is
not part of this repository; per the spec, registering a collection whose
identifier already exists fails with an error message containing
"already exists", and otherwise creates the collection.  The state is the
list of existing collection identifiers. -/
def backendRegister (collections : List String) (name : String) :
    RegisterOutcome × List String :=
  if name ∈ collections then
    (RegisterOutcome.err "Vector DB with this id already exists, skipping registration",
     collections)
  else (RegisterOutcome.ok, name :: collections)

/-- `create_vector_db` run against the spec-modelled backend: the
registration outcome is produced by `backendRegister`, which is only reached
when the document list is nonempty (mirroring the early return of line
255-257). -/
def runCreateVectorDb (collections : List String) (vector_store_name : String)
    (documents : List LlamaStackDocument) (insertOk : Bool) :
    Bool × List String :=
  if documents.isEmpty then (false, collections)
  else
    let p := backendRegister collections vector_store_name
    ((create_vector_db vector_store_name documents p.1 insertOk).1, p.2)

/-! ### PipelineOrchestrator: `process_pipeline` (ingest.py lines 295-334) -/

/-- The three pipeline stages the orchestrator can invoke. -/
inductive Stage where
  | fetch
  | transform
  | load
  deriving DecidableEq, Repr

/-- The `config` dict of a pipeline (`pipeline_config['config']`), holding
the source-specific parameters for whichever source kind is selected. -/
structure SourceConfig where
  gh : GithubConfig
  s3 : S3Config
  url : UrlConfig
  deriving Repr

/-- One pipeline's configuration dict together with the oracles for every
external effect its execution can observe. -/
structure PipelineEnv where
  /-- `pipeline_config.get('enabled', False)` reads this key. -/
  enabled : Option Bool
  /-- `pipeline_config['vector_store_name']` (required key). -/
  vector_store_name : Option String
  /-- `pipeline_config['source']` (required key). -/
  source : Option String
  /-- `pipeline_config['config']` (required key). -/
  config : Option SourceConfig
  ghClone : CloneOutcome
  ghPathExists : Bool
  ghWalk : List (String × String)
  s3ListErr : Option PyErr
  s3Keys : List String
  s3Dl : String → Option PyErr
  urlDl : String → Option PyErr
  convert : String → Except PyErr (List DoclingChunk)
  reg : RegisterOutcome
  insertOk : Bool

/-- The source-kind dispatch of lines 312-320: `none` means the source
string matched none of `GITHUB`/`S3`/`URL`. -/
def dispatchFetch (source : String) (scfg : SourceConfig) (env : PipelineEnv)
    (temp_dir : String) : Option (Except PyErr (List String)) :=
  if source = "GITHUB" then
    some (fetch_from_github scfg.gh env.ghClone env.ghPathExists env.ghWalk temp_dir)
  else if source = "S3" then
    some (fetch_from_s3 scfg.s3 env.s3ListErr env.s3Keys env.s3Dl temp_dir)
  else if source = "URL" then
    some (fetch_from_urls scfg.url env.urlDl temp_dir)
  else none

/-- `IngestionService.process_pipeline`: the boolean result (or the
exception that escaped it), together with the stages that were invoked. -/
def process_pipeline (env : PipelineEnv) (temp_dir : String) :
    Except PyErr Bool × List Stage :=
  if env.enabled.getD false = false then (Except.ok true, [])
  else
    match dictGet env.vector_store_name "vector_store_name" with
    | Except.error e => (Except.error e, [])
    | Except.ok vname =>
      match dictGet env.source "source" with
      | Except.error e => (Except.error e, [])
      | Except.ok source =>
        match dictGet env.config "config" with
        | Except.error e => (Except.error e, [])
        | Except.ok scfg =>
          match dispatchFetch source scfg env temp_dir with
          | none => (Except.ok false, [])
          | some (Except.error e) => (Except.error e, [Stage.fetch])
          | some (Except.ok pdf_files) =>
            if pdf_files.isEmpty then (Except.ok false, [Stage.fetch])
            else
              let documents := process_documents pdf_files env.convert
              if documents.isEmpty then
                (Except.ok false, [Stage.fetch, Stage.transform])
              else
                (Except.ok (create_vector_db vname documents env.reg env.insertOk).1,
                 [Stage.fetch, Stage.transform, Stage.load])

/-! ### PipelineOrchestrator: `wait_for_llamastack` and `run`
(ingest.py lines 61-80 and 336-393) -/

/-- The retry loop of `wait_for_llamastack`: `health i` is the outcome of
the health check (`models.list`) on attempt number `i`. -/
def waitAttempts (health : Nat → Bool) : Nat → Nat → Bool
  | _, 0 => false
  | attempt, remaining + 1 =>
    if health attempt then true else waitAttempts health (attempt + 1) remaining

/-- `IngestionService.wait_for_llamastack` (the source's default
`max_retries` is 30). -/
def wait_for_llamastack (health : Nat → Bool) (max_retries : Nat) : Bool :=
  waitAttempts health 0 max_retries

/-- The per-run accumulator of `run`: the three counters and, for each
executed (enabled) pipeline, the stages it invoked. -/
structure LoopAcc where
  successful : Nat
  failed : Nat
  skipped : Nat
  trace : List (String × List Stage)
  deriving DecidableEq, Repr

/-- The boolean outcome `run` observes for one enabled pipeline: the value
returned by `process_pipeline`, with a raised exception caught by the
orchestrator's `try`/`except` and counted as failure. -/
def pipelineOkB (env : PipelineEnv) (temp_dir : String) : Bool :=
  match (process_pipeline env temp_dir).1 with
  | Except.ok b => b
  | Except.error _ => false

/-- The `for pipeline_name, pipeline_config in pipelines.items()` loop of
`run` (lines 353-365): disabled pipelines only bump `skipped`; for the rest,
`process_pipeline` is invoked under a `try` whose `except Exception` counts
the pipeline as failed. -/
def runLoop (temp_dir : String) : List (String × PipelineEnv) → LoopAcc
  | [] => ⟨0, 0, 0, []⟩
  | (name, env) :: rest =>
    let r := runLoop temp_dir rest
    if env.enabled.getD false = false then
      ⟨r.successful, r.failed, r.skipped + 1, r.trace⟩
    else if pipelineOkB env temp_dir then
      ⟨r.successful + 1, r.failed, r.skipped,
        (name, (process_pipeline env temp_dir).2) :: r.trace⟩
    else
      ⟨r.successful, r.failed + 1, r.skipped,
        (name, (process_pipeline env temp_dir).2) :: r.trace⟩

/-- The summary block of `run` (lines 367-375). -/
structure RunSummary where
  total : Nat
  successful : Nat
  failed : Nat
  skipped : Nat
  deriving DecidableEq, Repr

/-- The observable outcome of one invocation: the process exit code, the
emitted summary (`none` when the run exits before reaching it), and the
stage trace of the executed pipelines. -/
structure RunOutcome where
  exitCode : Nat
  summary : Option RunSummary
  trace : List (String × List Stage)
  deriving DecidableEq, Repr

/-- `IngestionService.run`: exit 1 when the readiness wait fails, otherwise
process every pipeline and exit 1 exactly when `failed > 0`. -/
def runService (health : Nat → Bool) (max_retries : Nat)
    (pipelines : List (String × PipelineEnv)) (temp_dir : String) :
    RunOutcome :=
  if wait_for_llamastack health max_retries = false then ⟨1, none, []⟩
  else
    let acc := runLoop temp_dir pipelines
    ⟨if acc.failed > 0 then 1 else 0,
     some ⟨pipelines.length, acc.successful, acc.failed, acc.skipped⟩,
     acc.trace⟩

/-- The `__main__` block (lines 385-393): exit 1 when the configuration
file is missing, otherwise run the service. -/
def mainEntry (configExists : Bool) (health : Nat → Bool) (max_retries : Nat)
    (pipelines : List (String × PipelineEnv)) (temp_dir : String) :
    RunOutcome :=
  if configExists = false then ⟨1, none, []⟩
  else runService health max_retries pipelines temp_dir

/-- A pipeline the `run` loop counts as failed: enabled, and
`process_pipeline` either returned `False` or raised. -/
def pipelineFailedB (env : PipelineEnv) (temp_dir : String) : Bool :=
  env.enabled.getD false && !pipelineOkB env temp_dir

/-! ## Helper lemmas -/

/-- Decimal decoding, the left inverse of `pyStrAux`. -/
def decodeDigits (l : List Char) : Nat :=
  l.foldl (fun acc c => acc * 10 + (c.toNat - 48)) 0

theorem decodeDigits_singleton (c : Char) : decodeDigits [c] = c.toNat - 48 := by
  simp [decodeDigits]

theorem decodeDigits_append_digit (l : List Char) (c : Char) :
    decodeDigits (l ++ [c]) = decodeDigits l * 10 + (c.toNat - 48) := by
  simp [decodeDigits, List.foldl_append]

theorem toNat_digitChar {d : Nat} (h : d < 10) : (digitChar d).toNat = 48 + d := by
  interval_cases d <;> rfl

theorem decodeDigits_pyStrAuxF :
    ∀ fuel n : Nat, n < fuel → decodeDigits (pyStrAuxF fuel n) = n := by
  intro fuel
  induction fuel with
  | zero => intro n h; omega
  | succ fuel ih =>
    intro n h
    simp only [pyStrAuxF]
    by_cases h10 : n < 10
    · rw [if_pos h10, decodeDigits_singleton, toNat_digitChar h10]
      omega
    · have hdiv : n / 10 < n := Nat.div_lt_self (by omega) (by omega)
      rw [if_neg h10, decodeDigits_append_digit, ih (n / 10) (by omega),
        toNat_digitChar (Nat.mod_lt n (by omega))]
      omega

theorem pyStr_injective : Function.Injective pyStr := by
  intro a b hab
  have hd : pyStrAuxF (a + 1) a = pyStrAuxF (b + 1) b := congrArg String.data hab
  have ha := decodeDigits_pyStrAuxF (a + 1) a (by omega)
  have hb := decodeDigits_pyStrAuxF (b + 1) b (by omega)
  rw [hd, hb] at ha
  omega

theorem docId_injective : Function.Injective (fun k => "doc-" ++ pyStr k) := by
  intro a b h
  have hd : ("doc-" ++ pyStr a).data = ("doc-" ++ pyStr b).data := congrArg String.data h
  rw [String.data_append, String.data_append] at hd
  exact pyStr_injective (String.ext (List.append_cancel_left hd))

theorem chunksToDocs_snd (f : String) (cs : List DoclingChunk) :
    ∀ k, (chunksToDocs f k cs).2 = k + (cs.filter keepChunk).length := by
  induction cs with
  | nil => intro k; simp [chunksToDocs]
  | cons c rest ih =>
    intro k
    by_cases h : keepChunk c
    · rw [List.filter_cons_of_pos h]
      simp only [chunksToDocs, h, if_true, ih, List.length_cons]
      omega
    · rw [List.filter_cons_of_neg (by simpa using h)]
      simp [chunksToDocs, h, ih]

theorem chunksToDocs_length (f : String) (cs : List DoclingChunk) :
    ∀ k, (chunksToDocs f k cs).1.length = (cs.filter keepChunk).length := by
  induction cs with
  | nil => intro k; simp [chunksToDocs]
  | cons c rest ih =>
    intro k
    by_cases h : keepChunk c
    · rw [List.filter_cons_of_pos h]
      simp only [chunksToDocs, h, if_true, List.length_cons, ih]
    · rw [List.filter_cons_of_neg (by simpa using h)]
      simp [chunksToDocs, h, ih]

theorem chunksToDocs_map_content (f : String) (cs : List DoclingChunk) :
    ∀ k, (chunksToDocs f k cs).1.map (·.content)
      = (cs.filter keepChunk).map (·.text) := by
  induction cs with
  | nil => intro k; simp [chunksToDocs]
  | cons c rest ih =>
    intro k
    by_cases h : keepChunk c
    · rw [List.filter_cons_of_pos h]
      simp only [chunksToDocs, h, if_true, List.map_cons, ih]
    · rw [List.filter_cons_of_neg (by simpa using h)]
      simp [chunksToDocs, h, ih]

theorem chunksToDocs_map_ids (f : String) (cs : List DoclingChunk) :
    ∀ k, (chunksToDocs f k cs).1.map (·.document_id)
      = (List.range (cs.filter keepChunk).length).map
          (fun i => "doc-" ++ pyStr (k + i + 1)) := by
  induction cs with
  | nil => intro k; simp [chunksToDocs]
  | cons c rest ih =>
    intro k
    by_cases h : keepChunk c
    · rw [List.filter_cons_of_pos h]
      simp only [chunksToDocs, h, if_true, List.map_cons, ih, List.length_cons,
        List.range_succ_eq_map, List.map_map, List.cons.injEq]
      refine ⟨by simp, List.map_congr_left (fun i _ => ?_)⟩
      simp only [Function.comp]
      exact congrArg (fun m => "doc-" ++ pyStr m) (by omega)
    · rw [List.filter_cons_of_neg (by simpa using h)]
      simp [chunksToDocs, h, ih]

theorem chunksToDocs_mem_source (f : String) (cs : List DoclingChunk) :
    ∀ k d, d ∈ (chunksToDocs f k cs).1 → d.metadata_source = basename f := by
  induction cs with
  | nil => intro k d hd; simp [chunksToDocs] at hd
  | cons c rest ih =>
    intro k d hd
    by_cases h : keepChunk c
    · simp only [chunksToDocs, h, if_true, List.mem_cons] at hd
      rcases hd with hd | hd
      · rw [hd]
      · exact ih _ _ hd
    · simp only [chunksToDocs, h, if_false] at hd
      exact ih _ _ hd

theorem processLoop_length (conv : String → Except PyErr (List DoclingChunk))
    (files : List String) :
    ∀ k, (processLoop conv files k).2 = k + (processLoop conv files k).1.length := by
  induction files with
  | nil => intro k; simp [processLoop]
  | cons f rest ih =>
    intro k
    match hc : conv f with
    | Except.error e => simp only [processLoop, hc, ih]
    | Except.ok cs =>
      simp only [processLoop, hc, List.length_append]
      rw [ih, chunksToDocs_snd, chunksToDocs_length]
      omega

theorem processLoop_map_ids (conv : String → Except PyErr (List DoclingChunk))
    (files : List String) :
    ∀ k, (processLoop conv files k).1.map (·.document_id)
      = (List.range (processLoop conv files k).1.length).map
          (fun i => "doc-" ++ pyStr (k + i + 1)) := by
  induction files with
  | nil => intro k; simp [processLoop]
  | cons f rest ih =>
    intro k
    match hc : conv f with
    | Except.error e => simp only [processLoop, hc, ih]
    | Except.ok cs =>
      simp only [processLoop, hc, List.map_append, List.length_append]
      rw [chunksToDocs_map_ids, ih, chunksToDocs_snd, chunksToDocs_length,
        List.range_add, List.map_append, List.map_map]
      refine congrArg (_ ++ ·) (List.map_congr_left (fun i _ => ?_))
      simp only [Function.comp]
      exact congrArg (fun m => "doc-" ++ pyStr m) (by omega)

theorem processLoop_map_content (conv : String → Except PyErr (List DoclingChunk))
    (files : List String) :
    ∀ k, (processLoop conv files k).1.map (·.content)
      = (files.map (fun f =>
          match conv f with
          | Except.ok cs => (cs.filter keepChunk).map (·.text)
          | Except.error _ => [])).flatten := by
  induction files with
  | nil => intro k; simp [processLoop]
  | cons f rest ih =>
    intro k
    match hc : conv f with
    | Except.error e => simp [processLoop, hc, ih]
    | Except.ok cs => simp [processLoop, hc, ih, chunksToDocs_map_content]

theorem processLoop_skip_error (conv : String → Except PyErr (List DoclingChunk))
    (f : String) (e : PyErr) (hf : conv f = Except.error e)
    (files1 files2 : List String) :
    ∀ k, processLoop conv (files1 ++ f :: files2) k
      = processLoop conv (files1 ++ files2) k := by
  induction files1 with
  | nil => intro k; simp only [List.nil_append, processLoop, hf]
  | cons g rest ih =>
    intro k
    match hc : conv g with
    | Except.error e' =>
      rw [List.cons_append, List.cons_append]
      simp only [processLoop, hc]
      exact ih k
    | Except.ok cs =>
      rw [List.cons_append, List.cons_append]
      simp only [processLoop, hc]
      rw [ih]

theorem processLoop_mem_source (conv : String → Except PyErr (List DoclingChunk))
    (files : List String) :
    ∀ k d, d ∈ (processLoop conv files k).1 →
      ∃ f, f ∈ files ∧ d.metadata_source = basename f := by
  induction files with
  | nil => intro k d hd; simp [processLoop] at hd
  | cons f rest ih =>
    intro k d hd
    match hc : conv f with
    | Except.error e =>
      simp only [processLoop, hc] at hd
      obtain ⟨g, hg, hs⟩ := ih _ _ hd
      exact ⟨g, List.mem_cons_of_mem _ hg, hs⟩
    | Except.ok cs =>
      simp only [processLoop, hc, List.mem_append] at hd
      rcases hd with hd | hd
      · exact ⟨f, List.mem_cons_self _ _, chunksToDocs_mem_source _ _ _ _ hd⟩
      · obtain ⟨g, hg, hs⟩ := ih _ _ hd
        exact ⟨g, List.mem_cons_of_mem _ hg, hs⟩

/-! ## Claim theorems: DocumentTransformer -/

/-- C7: an exception raised while converting a single file is caught inside
the transformer, that file contributes zero chunks, and processing continues
with the next file; the transformer never aborts the batch because of one
bad file, and its result is the concatenation of the chunks of every file
that converted successfully. -/
theorem transformer_per_file_isolation :
    (∀ (files : List String) (conv : String → Except PyErr (List DoclingChunk)),
      (process_documents files conv).map (·.content)
        = (files.map (fun f =>
            match conv f with
            | Except.ok cs => (cs.filter keepChunk).map (·.text)
            | Except.error _ => [])).flatten)
    ∧ (∀ (files1 : List String) (f : String) (files2 : List String)
        (conv : String → Except PyErr (List DoclingChunk)) (e : PyErr),
        conv f = Except.error e →
        process_documents (files1 ++ f :: files2) conv
          = process_documents (files1 ++ files2) conv) := by
  constructor
  · intro files conv
    exact processLoop_map_content conv files 0
  · intro files1 f files2 conv e hf
    simp only [process_documents, processLoop_skip_error conv f e hf]

/-- A sample converter for the C7 witness: raises on `bad.pdf`, succeeds
with one narrative-text chunk elsewhere. -/
def sampleConv (f : String) : Except PyErr (List DoclingChunk) :=
  if f = "bad.pdf" then Except.error (PyErr.exception "conversion failed")
  else Except.ok [⟨"hello", [DocItemLabel.text]⟩]

theorem transformer_per_file_isolation_witness :
    sampleConv "bad.pdf" = Except.error (PyErr.exception "conversion failed")
    ∧ process_documents (["a.pdf"] ++ "bad.pdf" :: ["c.pdf"]) sampleConv
        = process_documents (["a.pdf"] ++ ["c.pdf"]) sampleConv :=
  ⟨rfl, transformer_per_file_isolation.2 ["a.pdf"] "bad.pdf" ["c.pdf"]
    sampleConv (PyErr.exception "conversion failed") rfl⟩

/-- C8: within the chunk list produced for a single load call, chunk
identifiers are assigned in monotonically increasing order (`doc-1`,
`doc-2`, ... in list order) and are pairwise unique within the run. -/
theorem chunk_ids_monotone_and_unique :
    ∀ (files : List String) (conv : String → Except PyErr (List DoclingChunk)),
      ((process_documents files conv).map (·.document_id)
        = (List.range (process_documents files conv).length).map
            (fun i => "doc-" ++ pyStr (i + 1)))
      ∧ ((process_documents files conv).map (·.document_id)).Nodup := by
  intro files conv
  have hids : (process_documents files conv).map (·.document_id)
      = (List.range (process_documents files conv).length).map
          (fun i => "doc-" ++ pyStr (i + 1)) := by
    have h := processLoop_map_ids conv files 0
    simp only [process_documents]
    rw [h]
    exact List.map_congr_left (fun i _ =>
      congrArg (fun m => "doc-" ++ pyStr m) (by omega))
  refine ⟨hids, ?_⟩
  rw [hids]
  refine List.Nodup.map ?_ (List.nodup_range _)
  intro a b hab
  have hdata : (pyStr (a + 1)).data = (pyStr (b + 1)).data := by
    simpa [String.data_append] using congrArg String.data hab
  have := pyStr_injective (String.ext hdata)
  omega

/-- C9: every Chunk produced from a file carries metadata whose source field
is the basename of that file (not its full path), whatever source kind
fetched it; stated for the per-file chunk builder, and lifted to the whole
transformer output. -/
theorem chunk_metadata_source_basename :
    (∀ (file_path : String) (k : Nat) (cs : List DoclingChunk)
      (d : LlamaStackDocument), d ∈ (chunksToDocs file_path k cs).1 →
      d.metadata_source = basename file_path)
    ∧ (∀ (files : List String) (conv : String → Except PyErr (List DoclingChunk))
        (d : LlamaStackDocument), d ∈ process_documents files conv →
        ∃ f, f ∈ files ∧ d.metadata_source = basename f) :=
  ⟨fun file_path k cs d hd => chunksToDocs_mem_source file_path cs k d hd,
   fun files conv d hd => processLoop_mem_source conv files 0 d hd⟩

theorem chunk_metadata_source_basename_witness :
    (((chunksToDocs "/tmp/x/report.pdf" 0 [⟨"hello", [DocItemLabel.text]⟩]).1.headD
        ⟨"", "", "", ""⟩).metadata_source = basename "/tmp/x/report.pdf")
    ∧ basename "/tmp/x/report.pdf" = "report.pdf" :=
  ⟨chunk_metadata_source_basename.1 "/tmp/x/report.pdf" 0
      [⟨"hello", [DocItemLabel.text]⟩] _ (by decide),
   by decide⟩

/-! ## Claim theorems: SourceFetcher -/

theorem urlLoop_eq_filterMap (dir : String) (dl : String → Option PyErr) :
    ∀ urls, urlLoop dir dl urls
      = urls.filterMap (fun u =>
          match dl u with
          | none => some (pathJoin dir (urlFilename u))
          | some _ => none) := by
  intro urls
  induction urls with
  | nil => rfl
  | cons u rest ih =>
    match hd : dl u with
    | none => simp [urlLoop, hd, List.filterMap_cons, ih]
    | some e => simp [urlLoop, hd, List.filterMap_cons, ih]

/-- C6: the URL fetch variant downloads each URL individually; a failure for
one URL is skipped without aborting the remaining URLs, so the result is
exactly the files of the successful downloads; with 3 URLs of which 1
download fails, it returns exactly 2 materialized files. -/
theorem url_fetch_partial_success :
    (∀ (config : UrlConfig) (dl : String → Option PyErr) (td : String),
      fetch_from_urls config dl td
        = Except.ok ((config.urls.getD []).filterMap (fun u =>
            match dl u with
            | none => some (pathJoin (pathJoin td "url_files") (urlFilename u))
            | some _ => none)))
    ∧ (∀ (u1 u2 u3 : String) (dl : String → Option PyErr) (td : String)
        (e : PyErr), dl u1 = none → dl u2 = some e → dl u3 = none →
        fetch_from_urls ⟨some [u1, u2, u3]⟩ dl td
          = Except.ok [pathJoin (pathJoin td "url_files") (urlFilename u1),
              pathJoin (pathJoin td "url_files") (urlFilename u3)]) := by
  constructor
  · intro config dl td
    simp only [fetch_from_urls, urlLoop_eq_filterMap]
  · intro u1 u2 u3 dl td e h1 h2 h3
    simp [fetch_from_urls, urlLoop, h1, h2, h3]

theorem url_fetch_partial_success_witness :
    (fun u => if u = "http://h/bad" then some (PyErr.exception "download failed")
      else none) "http://h/bad" = some (PyErr.exception "download failed")
    ∧ fetch_from_urls ⟨some ["http://h/a.pdf", "http://h/bad", "http://h/c.pdf"]⟩
        (fun u => if u = "http://h/bad" then some (PyErr.exception "download failed")
          else none) "/t"
      = Except.ok ["/t/url_files/a.pdf", "/t/url_files/c.pdf"] := by
  refine ⟨rfl, ?_⟩
  have h := url_fetch_partial_success.2 "http://h/a.pdf" "http://h/bad"
    "http://h/c.pdf"
    (fun u => if u = "http://h/bad" then some (PyErr.exception "download failed")
      else none) "/t" (PyErr.exception "download failed") (by decide) (by decide)
    (by decide)
  rw [h]
  rfl

/-- C3 counterexample: a GITHUB-source configuration without the required
`url` key makes `fetch_from_github` raise `KeyError` past its boundary
(line 84 of ingest.py reads `config['url']` outside any `try`), instead of
returning an empty or partial list. -/
theorem fetch_raises_on_missing_url_key :
    fetch_from_github ⟨none, none, none, none⟩ CloneOutcome.ok true [] "/tmp"
      = Except.error (PyErr.keyError "url") := rfl

/-- C3 (amended): provided the source-specific required configuration keys
are present and, for the REPO variant, the clone subprocess fails only with
the anticipated `CalledProcessError` (the only exception class its `except`
clause catches), each fetch variant returns normally with an empty or
partial list rather than raising. -/
theorem fetch_errors_contained :
    (∀ (config : GithubConfig) (u : String) (clone : CloneOutcome)
       (pathExists : Bool) (walk : List (String × String)) (td : String),
      config.url = some u →
      (clone = CloneOutcome.ok ∨ ∃ s, clone = CloneOutcome.calledProcessError s) →
      ∃ files, fetch_from_github config clone pathExists walk td
        = Except.ok files)
    ∧ (∀ (config : S3Config) (ep bk ak sk : String) (listErr : Option PyErr)
        (keys : List String) (dl : String → Option PyErr) (td : String),
      config.endpoint = some ep → config.bucket = some bk →
      config.access_key = some ak → config.secret_key = some sk →
      ∃ files, fetch_from_s3 config listErr keys dl td = Except.ok files)
    ∧ (∀ (config : UrlConfig) (dl : String → Option PyErr) (td : String),
      ∃ files, fetch_from_urls config dl td = Except.ok files) := by
  refine ⟨?_, ?_, ?_⟩
  · intro config u clone pathExists walk td hurl hclone
    rcases hclone with rfl | ⟨s, rfl⟩
    · by_cases hpe : pathExists
      · exact ⟨(walk.filter (fun rf => strEndsWith (strLower rf.2) ".pdf")).map
          (fun rf => pathJoin rf.1 rf.2),
          by simp [fetch_from_github, dictGet, hurl, hpe]⟩
      · exact ⟨[], by simp [fetch_from_github, dictGet, hurl, hpe]⟩
    · exact ⟨[], by simp [fetch_from_github, dictGet, hurl]⟩
  · intro config ep bk ak sk listErr keys dl td h1 h2 h3 h4
    match hb : s3TryBody (pathJoin td "s3_files") listErr keys dl with
    | Except.error e =>
      exact ⟨[], by simp [fetch_from_s3, dictGet, h1, h2, h3, h4, hb]⟩
    | Except.ok files =>
      exact ⟨files, by simp [fetch_from_s3, dictGet, h1, h2, h3, h4, hb]⟩
  · intro config dl td
    exact ⟨_, rfl⟩

theorem fetch_errors_contained_witness :
    (∃ files, fetch_from_github ⟨some "https://example.com/r.git", none, none, none⟩
        (CloneOutcome.calledProcessError "fatal: not found") true [] "/t"
      = Except.ok files)
    ∧ (∃ files, fetch_from_s3 ⟨some "http://minio:9000", some "docs", some "ak",
        some "sk", none⟩ (some (PyErr.exception "listing failed")) [] (fun _ => none)
        "/t" = Except.ok files)
    ∧ (∃ files, fetch_from_urls ⟨none⟩ (fun _ => none) "/t" = Except.ok files) :=
  ⟨fetch_errors_contained.1 ⟨some "https://example.com/r.git", none, none, none⟩
      "https://example.com/r.git" _ true [] "/t" rfl
      (Or.inr ⟨"fatal: not found", rfl⟩),
   fetch_errors_contained.2.1 ⟨some "http://minio:9000", some "docs", some "ak",
      some "sk", none⟩ "http://minio:9000" "docs" "ak" "sk"
      (some (PyErr.exception "listing failed")) [] (fun _ => none) "/t"
      rfl rfl rfl rfl,
   fetch_errors_contained.2.2 ⟨none⟩ (fun _ => none) "/t"⟩

/-! ## Claim theorems: CollectionLoader -/

/-- C2: a registration error whose message contains "already exists"
(case-insensitively) is treated as success and insertion still proceeds; any
other registration error marks the pipeline failed without attempting
insertion; and against the spec-modelled backend, registering the same name
twice yields exactly one logical collection and no failure on the second
call. -/
theorem ensure_collection_idempotent :
    (∀ (name : String) (docs : List LlamaStackDocument) (msg : String)
       (ins : Bool), docs ≠ [] → strOccurs "already exists" msg = true →
      create_vector_db name docs (RegisterOutcome.err msg) ins
        = (ins, [BackendCall.register, BackendCall.insert]))
    ∧ (∀ (name : String) (docs : List LlamaStackDocument) (msg : String)
        (ins : Bool), docs ≠ [] → strOccurs "already exists" msg = false →
      create_vector_db name docs (RegisterOutcome.err msg) ins
        = (false, [BackendCall.register]))
    ∧ (∀ (collections : List String) (name : String)
        (docs : List LlamaStackDocument), docs ≠ [] → name ∉ collections →
      runCreateVectorDb collections name docs true = (true, name :: collections)
      ∧ runCreateVectorDb (name :: collections) name docs true
          = (true, name :: collections)
      ∧ (name :: collections).count name = 1) := by
  refine ⟨?_, ?_, ?_⟩
  · intro name docs msg ins hne hocc
    cases docs with
    | nil => exact absurd rfl hne
    | cons d ds => simp [create_vector_db, hocc]
  · intro name docs msg ins hne hocc
    cases docs with
    | nil => exact absurd rfl hne
    | cons d ds => simp [create_vector_db, hocc]
  · intro collections name docs hne hnotin
    cases docs with
    | nil => exact absurd rfl hne
    | cons d ds =>
      refine ⟨by simp [runCreateVectorDb, backendRegister, hnotin, create_vector_db],
        ?_, ?_⟩
      · have hocc : strOccurs "already exists"
            "Vector DB with this id already exists, skipping registration"
            = true := by decide
        simp [runCreateVectorDb, backendRegister, create_vector_db, hocc]
      · rw [List.count_cons_self, List.count_eq_zero.mpr hnotin]

theorem ensure_collection_idempotent_witness :
    ([] : List LlamaStackDocument) ≠ [⟨"doc-1", "text", "text/plain", "a.pdf"⟩]
    ∧ create_vector_db "mydb" [⟨"doc-1", "text", "text/plain", "a.pdf"⟩]
        (RegisterOutcome.err "Vector DB ALREADY EXISTS") true
      = (true, [BackendCall.register, BackendCall.insert])
    ∧ create_vector_db "mydb" [⟨"doc-1", "text", "text/plain", "a.pdf"⟩]
        (RegisterOutcome.err "connection refused") true
      = (false, [BackendCall.register])
    ∧ runCreateVectorDb [] "mydb" [⟨"doc-1", "text", "text/plain", "a.pdf"⟩] true
      = (true, ["mydb"])
    ∧ runCreateVectorDb ["mydb"] "mydb" [⟨"doc-1", "text", "text/plain", "a.pdf"⟩]
        true = (true, ["mydb"])
    ∧ (["mydb"] : List String).count "mydb" = 1 := by
  have h3 := ensure_collection_idempotent.2.2 [] "mydb"
    [⟨"doc-1", "text", "text/plain", "a.pdf"⟩] (by decide) (by decide)
  exact ⟨by decide,
    ensure_collection_idempotent.1 "mydb" _ "Vector DB ALREADY EXISTS" true
      (by decide) (by decide),
    ensure_collection_idempotent.2.1 "mydb" _ "connection refused" true
      (by decide) (by decide),
    h3.1, h3.2.1, h3.2.2⟩

/-- C4: a stage that returns empty output short-circuits the remaining
stages and marks the pipeline failed: a fetch that yields no files stops the
pipeline before transform and load; an empty transformer output stops it
before load; and `create_vector_db` on an empty chunk list returns failure
immediately without issuing any backend call. -/
theorem empty_stage_short_circuits :
    (∀ (env : PipelineEnv) (td vname source : String) (scfg : SourceConfig),
      env.enabled.getD false = true →
      env.vector_store_name = some vname →
      env.source = some source →
      env.config = some scfg →
      dispatchFetch source scfg env td = some (Except.ok []) →
      process_pipeline env td = (Except.ok false, [Stage.fetch]))
    ∧ (∀ (env : PipelineEnv) (td vname source : String) (scfg : SourceConfig)
        (files : List String),
      env.enabled.getD false = true →
      env.vector_store_name = some vname →
      env.source = some source →
      env.config = some scfg →
      dispatchFetch source scfg env td = some (Except.ok files) →
      files ≠ [] →
      process_documents files env.convert = [] →
      process_pipeline env td = (Except.ok false, [Stage.fetch, Stage.transform]))
    ∧ (∀ (vname : String) (reg : RegisterOutcome) (ins : Bool),
      create_vector_db vname [] reg ins = (false, [])) := by
  refine ⟨?_, ?_, ?_⟩
  · intro env td vname source scfg hen hv hs hc hf
    simp [process_pipeline, dictGet, hen, hv, hs, hc, hf]
  · intro env td vname source scfg files hen hv hs hc hf hne hdocs
    cases files with
    | nil => exact absurd rfl hne
    | cons f fs => simp [process_pipeline, dictGet, hen, hv, hs, hc, hf, hdocs]
  · intro vname reg ins
    rfl

/-- A URL-source pipeline whose configured URL list is empty, for the C4
witness: its fetch stage returns zero files. -/
def emptyUrlEnv : PipelineEnv :=
  ⟨some true, some "v", some "URL", some ⟨⟨none, none, none, none⟩,
    ⟨none, none, none, none, none⟩, ⟨some []⟩⟩, CloneOutcome.ok, true, [],
    none, [], fun _ => none, fun _ => none, fun _ => Except.ok [],
    RegisterOutcome.ok, true⟩

/-- A URL-source pipeline with one URL whose conversion yields no retained
chunks, for the C4 witness: its transform stage returns zero chunks. -/
def emptyChunksEnv : PipelineEnv :=
  ⟨some true, some "v", some "URL", some ⟨⟨none, none, none, none⟩,
    ⟨none, none, none, none, none⟩, ⟨some ["http://h/a.pdf"]⟩⟩, CloneOutcome.ok,
    true, [], none, [], fun _ => none, fun _ => none,
    fun _ => Except.ok [⟨"tbl", [DocItemLabel.table]⟩],
    RegisterOutcome.ok, true⟩

theorem empty_stage_short_circuits_witness :
    process_pipeline emptyUrlEnv "/t" = (Except.ok false, [Stage.fetch])
    ∧ process_pipeline emptyChunksEnv "/t"
        = (Except.ok false, [Stage.fetch, Stage.transform])
    ∧ create_vector_db "v" [] RegisterOutcome.ok true = (false, []) :=
  ⟨empty_stage_short_circuits.1 emptyUrlEnv "/t" "v" "URL" _ rfl rfl rfl rfl rfl,
   empty_stage_short_circuits.2.1 emptyChunksEnv "/t" "v" "URL" _
     ["/t/url_files/a.pdf"] rfl rfl rfl rfl rfl (by decide) (by decide),
   empty_stage_short_circuits.2.2 "v" RegisterOutcome.ok true⟩

/-! ## Claim theorems: PipelineOrchestrator -/

theorem runLoop_skipped (td : String) :
    ∀ ps, (runLoop td ps).skipped
      = ps.countP (fun p => !p.2.enabled.getD false) := by
  intro ps
  induction ps with
  | nil => rfl
  | cons p rest ih =>
    obtain ⟨name, env⟩ := p
    cases he : env.enabled.getD false
    · simp [runLoop, he, ih, List.countP_cons]
    · cases hok : pipelineOkB env td <;>
        simp [runLoop, he, hok, ih, List.countP_cons]

theorem runLoop_trace (td : String) :
    ∀ ps, (runLoop td ps).trace
      = (ps.filter (fun p => p.2.enabled.getD false)).map
          (fun p => (p.1, (process_pipeline p.2 td).2)) := by
  intro ps
  induction ps with
  | nil => rfl
  | cons p rest ih =>
    obtain ⟨name, env⟩ := p
    cases he : env.enabled.getD false
    · simp [runLoop, he, ih, List.filter_cons]
    · cases hok : pipelineOkB env td <;>
        simp [runLoop, he, hok, ih, List.filter_cons]

theorem runLoop_enabled_count (td : String) :
    ∀ ps, (runLoop td ps).successful + (runLoop td ps).failed
      = ps.countP (fun p => p.2.enabled.getD false) := by
  intro ps
  induction ps with
  | nil => rfl
  | cons p rest ih =>
    obtain ⟨name, env⟩ := p
    cases he : env.enabled.getD false
    · simpa [runLoop, he, List.countP_cons] using ih
    · cases hok : pipelineOkB env td <;>
        · simp [runLoop, he, hok, List.countP_cons]
          omega

theorem runLoop_counts (td : String) :
    ∀ ps, (runLoop td ps).successful + (runLoop td ps).failed
      + (runLoop td ps).skipped = ps.length := by
  intro ps
  induction ps with
  | nil => rfl
  | cons p rest ih =>
    obtain ⟨name, env⟩ := p
    cases he : env.enabled.getD false
    · simp [runLoop, he]
      omega
    · cases hok : pipelineOkB env td <;>
        · simp [runLoop, he, hok]
          omega

theorem runLoop_failed (td : String) :
    ∀ ps, (runLoop td ps).failed
      = ps.countP (fun p => pipelineFailedB p.2 td) := by
  intro ps
  induction ps with
  | nil => rfl
  | cons p rest ih =>
    obtain ⟨name, env⟩ := p
    cases he : env.enabled.getD false
    · simp [runLoop, he, ih, List.countP_cons, pipelineFailedB]
    · cases hok : pipelineOkB env td <;>
        simp [runLoop, he, hok, ih, List.countP_cons, pipelineFailedB]

/-- C5: a pipeline whose `enabled` flag is false is never executed — it
contributes no entry to the stage trace, so fetch/transform/load are not
invoked for it — and among the counters only `skipped` counts it, while
`successful + failed` counts exactly the enabled pipelines. -/
theorem disabled_pipeline_only_skipped :
    ∀ (td : String) (ps : List (String × PipelineEnv)),
      (runLoop td ps).trace
        = (ps.filter (fun p => p.2.enabled.getD false)).map
            (fun p => (p.1, (process_pipeline p.2 td).2))
      ∧ (runLoop td ps).skipped
          = ps.countP (fun p => !p.2.enabled.getD false)
      ∧ (runLoop td ps).successful + (runLoop td ps).failed
          = ps.countP (fun p => p.2.enabled.getD false) :=
  fun td ps => ⟨runLoop_trace td ps, runLoop_skipped td ps,
    runLoop_enabled_count td ps⟩

/-- C10: whenever a run reaches the summary, the counters partition the
configured pipelines: `successful + failed + skipped = total`. -/
theorem summary_counters_partition :
    ∀ (health : Nat → Bool) (max_retries : Nat)
      (ps : List (String × PipelineEnv)) (td : String) (s : RunSummary),
      (runService health max_retries ps td).summary = some s →
      s.successful + s.failed + s.skipped = s.total := by
  intro health max_retries ps td s hs
  by_cases hw : wait_for_llamastack health max_retries = false
  · simp [runService, hw] at hs
  · have hsum : (runService health max_retries ps td).summary
        = some ⟨ps.length, (runLoop td ps).successful, (runLoop td ps).failed,
            (runLoop td ps).skipped⟩ := by
      unfold runService
      rw [if_neg hw]
    rw [hsum, Option.some.injEq] at hs
    rw [← hs]
    exact runLoop_counts td ps

/-- A disabled pipeline used by orchestrator witnesses. -/
def disabledEnv : PipelineEnv :=
  ⟨some false, some "v", some "URL", some ⟨⟨none, none, none, none⟩,
    ⟨none, none, none, none, none⟩, ⟨some []⟩⟩, CloneOutcome.ok, true, [],
    none, [], fun _ => none, fun _ => none, fun _ => Except.ok [],
    RegisterOutcome.ok, true⟩

theorem summary_counters_partition_witness :
    (runService (fun _ => true) 30 [("docs", disabledEnv)] "/t").summary
      = some ⟨1, 0, 0, 1⟩
    ∧ (1 : Nat) = 0 + 0 + 1 :=
  ⟨rfl, (summary_counters_partition (fun _ => true) 30 [("docs", disabledEnv)]
    "/t" ⟨1, 0, 0, 1⟩ rfl).symm⟩

/-- C1: with an existing configuration file and a successful readiness
wait, the process exit code is nonzero iff at least one enabled pipeline
failed (all-successful-or-skipped runs, including zero enabled pipelines,
exit 0); a missing configuration file exits 1, and an exhausted readiness
wait exits 1 before any pipeline runs. -/
theorem exit_code_nonzero_iff_failure :
    (∀ (health : Nat → Bool) (max_retries : Nat)
       (ps : List (String × PipelineEnv)) (td : String),
      mainEntry false health max_retries ps td = ⟨1, none, []⟩)
    ∧ (∀ (health : Nat → Bool) (max_retries : Nat)
        (ps : List (String × PipelineEnv)) (td : String),
      wait_for_llamastack health max_retries = false →
      mainEntry true health max_retries ps td = ⟨1, none, []⟩)
    ∧ (∀ (health : Nat → Bool) (max_retries : Nat)
        (ps : List (String × PipelineEnv)) (td : String),
      wait_for_llamastack health max_retries = true →
      ((mainEntry true health max_retries ps td).exitCode ≠ 0
        ↔ ∃ p, p ∈ ps ∧ pipelineFailedB p.2 td = true)) := by
  refine ⟨fun _ _ _ _ => rfl, ?_, ?_⟩
  · intro health max_retries ps td hw
    simp [mainEntry, runService, hw]
  · intro health max_retries ps td hw
    have hx : (mainEntry true health max_retries ps td).exitCode
        = if (runLoop td ps).failed > 0 then 1 else 0 := by
      unfold mainEntry runService
      rw [if_neg (by simp), if_neg (by simp [hw])]
    rw [hx, runLoop_failed td ps]
    rcases Nat.eq_zero_or_pos (ps.countP (fun p => pipelineFailedB p.2 td))
      with hz | hpos
    · rw [hz, if_neg (by omega)]
      refine iff_of_false (by omega) ?_
      rintro ⟨p, hp, hpf⟩
      have h0 : 0 < ps.countP (fun q => pipelineFailedB q.2 td) :=
        List.countP_pos_iff.mpr ⟨p, hp, hpf⟩
      omega
    · rw [if_pos hpos]
      refine iff_of_true (by omega) ?_
      simpa using List.countP_pos_iff.mp hpos

theorem exit_code_nonzero_iff_failure_witness :
    wait_for_llamastack (fun _ => false) 3 = false
    ∧ mainEntry true (fun _ => false) 3 [("docs", disabledEnv)] "/t"
        = ⟨1, none, []⟩ :=
  ⟨rfl, exit_code_nonzero_iff_failure.2.1 (fun _ => false) 3
    [("docs", disabledEnv)] "/t" rfl⟩

end RAGIngest
